import Mathlib

/-!
Verification of the tourreviewai worker core: retry executor with circuit
breaker (src/utils/Logger.ts, RetryManager), the phased import pipeline
(src/services/MetricsCollector.ts, ScalableJobProcessor and the JobProcessor
variant), and the worker pool manager (src/services/WorkerManager.ts).

The embedding is shallow: each JS method is translated to a pure Lean
function.  Asynchronous operations become oracle functions (attempt index to
outcome), thrown exceptions become Except, timestamps are naturals (epoch
milliseconds), and fractional arithmetic (delays, progress percentages) is
carried out in the rationals.
-/

namespace RetryManager

/-- Options of executeWithRetry.  In the source backoffMultiplier defaults to
2, maxDelayMs to 30000 and retryCondition to a constantly-true predicate; the
record here always carries the resolved values. -/
structure RetryOptions (ε : Type) where
  maxAttempts : Nat
  delayMs : ℚ
  backoffMultiplier : ℚ
  maxDelayMs : ℚ
  retryCondition : ε → Bool

/-- Observable outcome of one executeWithRetry call: the value returned or
error re-raised, how many times the operation was invoked, and the list of
backoff delays awaited between attempts, in order. -/
structure RetryRun (ε α : Type) where
  result : Except ε α
  invocations : Nat
  delays : List ℚ

/-- The delay computed before retrying after a failed attempt:
Math.min(delayMs * Math.pow(backoffMultiplier, attempt - 1), maxDelayMs). -/
def backoffDelay (o : RetryOptions ε) (attempt : Nat) : ℚ :=
  min (o.delayMs * o.backoffMultiplier ^ (attempt - 1)) o.maxDelayMs

/-- The retry loop of executeWithRetry, with the operation modelled as a
function from the 1-based attempt index to that attempt's outcome.  `rest` is
the number of attempts still permitted after the current one, so inside
executeWithRetry `rest = maxAttempts - attempt` and the source's break test
`attempt === maxAttempts` is `rest = 0`.  On failure the loop re-raises when
no attempts remain or the retry condition rejects the error, and otherwise
waits backoffDelay before the next attempt. -/
def retryGo (op : Nat → Except ε α) (cond : ε → Bool) (delay : Nat → ℚ)
    (attempt : Nat) : Nat → RetryRun ε α
  | 0 =>
    match op attempt with
    | .ok a => ⟨.ok a, 1, []⟩
    | .error e => ⟨.error e, 1, []⟩
  | rest + 1 =>
    match op attempt with
    | .ok a => ⟨.ok a, 1, []⟩
    | .error e =>
      if cond e then
        let tail := retryGo op cond delay (attempt + 1) rest
        ⟨tail.result, tail.invocations + 1, delay attempt :: tail.delays⟩
      else ⟨.error e, 1, []⟩

/-- executeWithRetry (src/utils/Logger.ts lines 239-310): run the loop from
attempt 1 with maxAttempts - 1 further attempts permitted. -/
def executeWithRetry (op : Nat → Except ε α) (o : RetryOptions ε) : RetryRun ε α :=
  retryGo op o.retryCondition (backoffDelay o) 1 (o.maxAttempts - 1)

/-- addJitter (src/utils/Logger.ts lines 485-488), with the Math.random draw
made an explicit parameter r in [0, 1):
Math.max(0, delayMs + delayMs * jitterPercent * (r - 0.5) * 2). -/
def addJitter (delayMs jitterPercent r : ℚ) : ℚ :=
  max 0 (delayMs + delayMs * jitterPercent * (r - 1/2) * 2)

/-- Circuit breaker state enum: 'closed' | 'open' | 'half-open'. -/
inductive CBState where
  | closed
  | opened
  | halfOpen
deriving DecidableEq, Repr

/-- Per-operation-name circuit breaker record {failures, lastFailure, state}. -/
structure Breaker where
  failures : Nat
  lastFailure : Nat
  state : CBState
deriving DecidableEq, Repr

/-- What one executeWithCircuitBreaker call did: rejected means the breaker
was open and the underlying operation was NOT invoked; succeeded / failed
mean the operation was invoked with that outcome. -/
inductive CBOutcome where
  | rejected
  | succeeded
  | failed
deriving DecidableEq, Repr

/-- Fresh breaker installed on first use of an operation name:
{failures: 0, lastFailure: 0, state: 'closed'}. -/
def cbFresh : Breaker := ⟨0, 0, .closed⟩

/-- The invoke-and-update part of executeWithCircuitBreaker (after the open
check): on success the breaker resets only when in half-open state; on
failure the counter increments, the failure time is recorded, and reaching
the threshold opens the circuit. -/
def cbCall (th : Nat) (b : Breaker) (now : Nat) (opOk : Bool) :
    Breaker × CBOutcome :=
  if opOk then
    (if b.state = .halfOpen then ⟨0, b.lastFailure, .closed⟩ else b, .succeeded)
  else
    let f := b.failures + 1
    (⟨f, now, if th ≤ f then .opened else b.state⟩, .failed)

/-- One executeWithCircuitBreaker call (src/utils/Logger.ts lines 421-478)
for a given operation name, with the wall clock `now` and the underlying
operation's outcome `opOk` explicit.  An open breaker rejects the call unless
recoveryTimeMs has elapsed since the last failure, in which case the state
moves to half-open and the call proceeds as the probe. -/
def cbStep (th rt : Nat) (b : Breaker) (now : Nat) (opOk : Bool) :
    Breaker × CBOutcome :=
  if b.state = .opened then
    if rt < now - b.lastFailure then
      cbCall th { b with state := .halfOpen } now opOk
    else (b, .rejected)
  else cbCall th b now opOk

/-- A sequence of executeWithCircuitBreaker calls for one operation name,
each given as (wall-clock time, operation outcome). -/
def cbRun (th rt : Nat) : Breaker → List (Nat × Bool) → Breaker
  | b, [] => b
  | b, c :: cs => cbRun th rt (cbStep th rt b c.1 c.2).1 cs

/-- Number of failed calls in a call sequence. -/
def cbFailCount (calls : List (Nat × Bool)) : Nat :=
  calls.countP (fun c => !c.2)

end RetryManager

namespace ScalableJobProcessor

/-- One entry of result.tasks in a DataForSEO getTaskResult response: the
numeric status_code and the result array (its elements abstracted to α). -/
structure TaskEntry (α : Type) where
  status_code : Nat
  result : List α
deriving DecidableEq, Repr

/-- What one getTaskResult call yields: the fetch itself may throw, or it
returns a response whose tasks array is modelled by its list of entries
(empty list covering both a missing and an empty tasks array). -/
inductive PollResponse (α : Type) where
  | fetchErr
  | response (tasks : List (TaskEntry α))
deriving DecidableEq, Repr

/-- Errors pollForResults can raise to its caller. -/
inductive PollError where
  | taskFailed (code : Nat)
  | fetchFailed
  | timeout
deriving DecidableEq, Repr

/-- Control outcome of one iteration of the polling loop body. -/
inductive AttemptStep (α : Type) where
  | done (data : Option α)
  | next
  | raise (e : PollError)
deriving DecidableEq, Repr

/-- The try-block body of one polling attempt (before the catch clause):
status 20000 with a non-empty result array returns result[0]; 20100
continues; any other status throws a task-failed error; 20000 with an empty
result array returns the empty structure (modelled as `done none`); a
missing/empty tasks array falls through the block and continues. -/
def pollBody : List (TaskEntry α) → AttemptStep α
  | [] => .next
  | t :: _ =>
    match t.result with
    | r :: _ =>
      if t.status_code = 20000 then .done (some r)
      else if t.status_code = 20100 then .next
      else .raise (.taskFailed t.status_code)
    | [] =>
      if t.status_code = 20000 then .done none
      else if t.status_code = 20100 then .next
      else .raise (.taskFailed t.status_code)

/-- One polling attempt including the catch clause: any error thrown inside
the try block (a fetch failure or a terminal task-failure status) is caught,
logged, and re-raised only when `attempt > maxAttempts / 2`; on earlier
attempts the loop simply continues. -/
def pollStep (maxAttempts attempt : Nat) : PollResponse α → AttemptStep α
  | .fetchErr =>
    if maxAttempts / 2 < attempt then .raise .fetchFailed else .next
  | .response tasks =>
    match pollBody tasks with
    | .raise e => if maxAttempts / 2 < attempt then .raise e else .next
    | s => s

/-- The polling loop from a given attempt.  `fuel` is the number of loop
iterations still available (maxAttempts + 1 - attempt inside pollForResults);
exhausting it is the terminal timeout failure. -/
def pollFrom (responses : Nat → PollResponse α) (maxAttempts : Nat) :
    Nat → Nat → Except PollError (Option α)
  | _, 0 => .error .timeout
  | attempt, fuel + 1 =>
    match pollStep maxAttempts attempt (responses attempt) with
    | .done v => .ok v
    | .raise e => .error e
    | .next => pollFrom responses maxAttempts (attempt + 1) fuel

/-- pollForResults (src/services/MetricsCollector.ts lines 703-742 and the
identical loop in the JobProcessor variant): maxAttempts = 60, attempts
numbered from 1, the per-attempt getTaskResult outcome given by `responses`. -/
def pollForResults (responses : Nat → PollResponse α) : Except PollError (Option α) :=
  pollFrom responses 60 1 60

/-- A review item as the phase processors inspect it: the two date fields,
already parsed to epoch milliseconds when present and parseable. -/
structure Review where
  timestamp : Option Nat
  date_of_visit : Option Nat
deriving DecidableEq, Repr

/-- review.timestamp || review.date_of_visit. -/
def effectiveDate (r : Review) : Option Nat :=
  r.timestamp.orElse (fun _ => r.date_of_visit)

/-- The fields processPhase1 writes to the run plus how many times it calls
schedulePhase2. -/
structure Phase1Result where
  total_available : Nat
  imported_count : Nat
  status : String
  phase2Scheduled : Nat
deriving DecidableEq, Repr

/-- processPhase1 (src/services/MetricsCollector.ts lines 387-442) restricted
to its run-state outcome, with the polled count-task result given by its
reviews_count field (absent/zero coalesced by `|| 0`) and items list.  The
status is 'completed' only when no more than the 10 sampled reviews exist;
otherwise Phase 2 is scheduled exactly once via schedulePhase2. -/
def processPhase1 (reviews_count : Option Nat) (items : List Review) : Phase1Result :=
  let totalAvailable := reviews_count.getD 0
  { total_available := totalAvailable
    imported_count := items.length
    status := if 10 < totalAvailable then "phase_1_complete" else "completed"
    phase2Scheduled := if 10 < totalAvailable then 1 else 0 }

/-- Offset range [startOffset, endOffset) of one Phase 2 chunk. -/
structure ChunkInfo where
  startOffset : Nat
  endOffset : Nat
deriving DecidableEq, Repr

/-- The chunk layout computed by processPhase2 (src/services/MetricsCollector.ts
lines 450-527): chunkSize = 500, totalChunks = ceil((totalReviews - 10)/500),
chunk k covering offsets 10 + k*500 up to min(start + 500, totalReviews). -/
def phase2Chunks (totalReviews : Nat) : List ChunkInfo :=
  let chunkSize := 500
  let totalChunks := (totalReviews - 10 + (chunkSize - 1)) / chunkSize
  (List.range totalChunks).map fun chunk =>
    let s := 10 + chunk * chunkSize
    ⟨s, min (s + chunkSize) totalReviews⟩

/-- The cumulative imported count maintained by the Phase 2 chunk loop:
totalImported starts at 10 (the Phase 1 sample already imported) and the
chunk's importReviews count is added only when the chunk's polled items list
is non-empty.  `results` gives, per chunk index, the polled items list and
the count importReviews would report for it. -/
def phase2FinalImported (results : Nat → List Review × Nat) (totalChunks : Nat) : Nat :=
  (List.range totalChunks).foldl
    (fun acc chunk =>
      if (results chunk).1.length ≠ 0 then acc + (results chunk).2 else acc)
    10

/-- The run-state outcome of processPhase3. -/
structure Phase3Result where
  status : String
  imported_count : Nat
  importedReviews : List Review
  total_available : Nat
deriving DecidableEq, Repr

/-- The watermark filter of processPhase3 (src/services/MetricsCollector.ts
lines 552-559): with a known last-review date, keep exactly the reviews whose
timestamp || date_of_visit is present and strictly newer; with no watermark
all reviews pass. -/
def phase3Filter (lastReviewDate : Option Nat) (allReviews : List Review) : List Review :=
  match lastReviewDate with
  | none => allReviews
  | some t =>
    allReviews.filter fun r =>
      match effectiveDate r with
      | some d => decide (t < d)
      | none => false

/-- processPhase3 (src/services/MetricsCollector.ts lines 535-592) restricted
to its run-state outcome on the successful path: filter the polled items by
the watermark, import the filtered subset only when non-empty (its upsert
count given by the `upsertCount` oracle), and complete the run. -/
def processPhase3 (lastReviewDate : Option Nat) (reviews_count : Option Nat)
    (items : List Review) (upsertCount : List Review → Nat) : Phase3Result :=
  let newReviews := phase3Filter lastReviewDate items
  let importedCount := if newReviews.length ≠ 0 then upsertCount newReviews else 0
  { status := "completed"
    imported_count := importedCount
    importedReviews := if newReviews.length ≠ 0 then newReviews else []
    total_available := reviews_count.getD 0 }

end ScalableJobProcessor

namespace JobProcessor

/-- Math.round, producing a rational so it can sit in progress arithmetic. -/
def jsRound (q : ℚ) : ℚ := (⌊q + 1/2⌋ : ℤ)

/-- JobProcessor.updateProgress (src/unnamed/part_010 lines 395-404) clamps
the written percentage at 100. -/
def updateProgressValue (p : ℚ) : ℚ := min p 100

/-- Math.min(2, (50 - 30) / maxAttempts) with maxAttempts = 60: the
per-attempt progress increment of the JobProcessor polling loop. -/
def progressIncrement : ℚ := min 2 ((50 - 30) / 60)

/-- The progress values written by a JobProcessor.pollForResults invocation
that runs for `attempts` attempts: attempt a (1-based) writes
min(30 + a * progressIncrement, 100) before checking the task result. -/
def pollWrites (attempts : Nat) : List ℚ :=
  (List.range attempts).map fun a : Nat =>
    updateProgressValue (30 + ((a : ℚ) + 1) * progressIncrement)

/-- The progress values written by the importReviews batch loop
(src/unnamed/part_010 lines 340-389) over `numItems` reviews in batches of
`batchSize`: after the batch starting at i the write is
min(60 + round(((i + batchLen) / numItems) * 35), 100). -/
def importWrites (numItems batchSize : Nat) : List ℚ :=
  (List.range ((numItems + (batchSize - 1)) / batchSize)).map fun bi =>
    let i := bi * batchSize
    let bl := min batchSize (numItems - i)
    updateProgressValue (60 + jsRound (((i : ℚ) + (bl : ℚ)) / (numItems : ℚ) * 35))

/-- The full sequence of progress_percentage values written to the run by one
processTripAdvisorImport invocation on the full-history happy path
(src/unnamed/part_010 lines 51-116): the insert at 0, the fixed writes at 10
and 20, the count poll's writes (k1 attempts), then — only when more than 10
reviews exist — the fixed write at 40 followed by the bulk poll's writes (k2
attempts), then the fixed write at 60, the import batch writes, and
completeJob's 100. -/
def fullHistoryProgressTrace (totalReviews k1 k2 numItems batchSize : Nat) : List ℚ :=
  [0, 10, 20] ++ pollWrites k1 ++
  (if 10 < totalReviews then [40] ++ pollWrites k2 else []) ++
  [60] ++ importWrites numItems batchSize ++ [100]

/-- Monotone non-decreasing sequence of written progress values. -/
def progressMonotone (l : List ℚ) : Prop := l.Chain' (· ≤ ·)

instance (l : List ℚ) : Decidable (progressMonotone l) :=
  inferInstanceAs (Decidable (l.Chain' (· ≤ ·)))

end JobProcessor

namespace WorkerManager

/-- Outcome of the claim_next_job RPC: the call may report an error, or
return a (possibly empty) list of rows. -/
inductive ClaimResponse (J : Type) where
  | rpcError (msg : String)
  | rows (data : List J)
deriving DecidableEq, Repr

/-- The try-block of claimNextJob (src/services/WorkerManager.ts lines
208-237) before the catch: an RPC error becomes a thrown exception, a
non-empty data array yields its first job, and an empty one yields null. -/
def claimNextJobInner : ClaimResponse J → Except String (Option J)
  | .rpcError m => .error ("Failed to claim job: " ++ m)
  | .rows [] => .ok none
  | .rows (j :: _) => .ok (some j)

/-- claimNextJob: the whole body sits in a try/catch whose catch logs the
error and returns null, so the caller can never observe an exception. -/
def claimNextJob (resp : ClaimResponse J) : Except String (Option J) :=
  match claimNextJobInner resp with
  | .error _ => .ok none
  | .ok r => .ok r

/-- The claim loop of pollForJobs (src/services/WorkerManager.ts lines
195-206): for each free slot claim one job (the i-th claim outcome given by
`responses`), dispatch it, and end the cycle on a null claim.  An exception
from claimNextJob would propagate out of the loop (there is no try around
it); the returned list is the jobs dispatched this cycle. -/
def pollGo (responses : Nat → ClaimResponse J) :
    Nat → Nat → List J → Except String (List J)
  | _, 0, acc => .ok acc.reverse
  | i, s + 1, acc =>
    match claimNextJob (responses i) with
    | .error e => .error e
    | .ok none => .ok acc.reverse
    | .ok (some j) => pollGo responses (i + 1) s (j :: acc)

/-- pollForJobs with `slots` available slots. -/
def pollForJobs (slots : Nat) (responses : Nat → ClaimResponse J) :
    Except String (List J) :=
  pollGo responses 0 slots []

end WorkerManager

open RetryManager ScalableJobProcessor JobProcessor WorkerManager

/-- C3: in executeWithRetry, a failed attempt whose error the retry predicate
rejects, or that was the last permitted attempt (rest = 0, i.e. the attempt
count reached maxAttempts), re-raises that same error immediately: exactly
one invocation from that point and no delay.  Otherwise the next attempt
happens after a wait of exactly
min(delayMs * backoffMultiplier^(attempt-1), maxDelayMs). -/
theorem executeWithRetry_backoff_spec {ε α : Type} (op : Nat → Except ε α)
    (o : RetryOptions ε) (attempt rest : Nat) (e : ε)
    (hfail : op attempt = .error e) :
    (executeWithRetry op o =
      retryGo op o.retryCondition (backoffDelay o) 1 (o.maxAttempts - 1)) ∧
    (o.retryCondition e = false ∨ rest = 0 →
      retryGo op o.retryCondition (backoffDelay o) attempt rest =
        ⟨.error e, 1, []⟩) ∧
    (o.retryCondition e = true → ∀ r, rest = r + 1 →
      retryGo op o.retryCondition (backoffDelay o) attempt rest =
        ⟨(retryGo op o.retryCondition (backoffDelay o) (attempt + 1) r).result,
         (retryGo op o.retryCondition (backoffDelay o) (attempt + 1) r).invocations + 1,
         min (o.delayMs * o.backoffMultiplier ^ (attempt - 1)) o.maxDelayMs ::
           (retryGo op o.retryCondition (backoffDelay o) (attempt + 1) r).delays⟩) := by
  refine ⟨rfl, ?_, ?_⟩
  · rintro (hcond | hrest)
    · cases rest with
      | zero => simp [retryGo, hfail]
      | succ r => simp [retryGo, hfail, hcond]
    · subst hrest; simp [retryGo, hfail]
  · intro hcond r hrest
    subst hrest
    simp [retryGo, hfail, hcond, backoffDelay]

/-- Concrete operation for the C3 witness: every attempt fails with error 3. -/
def c3op : Nat → Except Nat Nat := fun _ => .error 3

/-- Concrete options for the C3 witness. -/
def c3opts : RetryOptions Nat :=
  ⟨3, 100, 2, 30000, fun e => decide (e ≠ 7)⟩

/-- C3 witness: at attempt 3 of 3 (rest = 0) the error is re-raised with one
invocation and no delay, and at attempt 1 with two attempts left the loop
waits exactly min(100 * 2^0, 30000) = 100 before attempt 2. -/
theorem executeWithRetry_backoff_spec_witness :
    retryGo c3op c3opts.retryCondition (backoffDelay c3opts) 3 0 =
      ⟨.error 3, 1, []⟩ ∧
    retryGo c3op c3opts.retryCondition (backoffDelay c3opts) 1 2 =
      ⟨(retryGo c3op c3opts.retryCondition (backoffDelay c3opts) 2 1).result,
       (retryGo c3op c3opts.retryCondition (backoffDelay c3opts) 2 1).invocations + 1,
       min (c3opts.delayMs * c3opts.backoffMultiplier ^ (1 - 1)) c3opts.maxDelayMs ::
         (retryGo c3op c3opts.retryCondition (backoffDelay c3opts) 2 1).delays⟩ :=
  ⟨(executeWithRetry_backoff_spec c3op c3opts 3 0 3 rfl).2.1 (Or.inr rfl),
   (executeWithRetry_backoff_spec c3op c3opts 1 2 3 rfl).2.2 (by decide) 1 rfl⟩

/-- C8 counterexample: addJitter 100 with jitterPercent 1/10 and random draw
0 returns 90, strictly below the input delay, so the returned delay is not
always at least the input delay. -/
theorem addJitter_below_input_delay :
    addJitter 100 (1/10) 0 = 90 ∧ ¬ (100 ≤ addJitter 100 (1/10) 0) := by
  constructor <;> norm_num [addJitter]

/-- C8 amended: for a non-negative delay, non-negative jitter percentage and
a draw r in [0, 1], the jitter is bounded in magnitude by jitterPercent of
the delay — the result lies between delayMs * (1 - jitterPercent) (clamped
at zero) and delayMs * (1 + jitterPercent) — and is never below zero. -/
theorem addJitter_bounds (delayMs jitterPercent r : ℚ)
    (hd : 0 ≤ delayMs) (hj : 0 ≤ jitterPercent) (hr0 : 0 ≤ r) (hr1 : r ≤ 1) :
    0 ≤ addJitter delayMs jitterPercent r ∧
    addJitter delayMs jitterPercent r ≤ delayMs * (1 + jitterPercent) ∧
    delayMs * (1 - jitterPercent) ≤ addJitter delayMs jitterPercent r := by
  have hdj : 0 ≤ delayMs * jitterPercent := mul_nonneg hd hj
  have hup : delayMs * jitterPercent * (r - 1/2) * 2 ≤ delayMs * jitterPercent := by
    nlinarith
  have hlow : -(delayMs * jitterPercent) ≤ delayMs * jitterPercent * (r - 1/2) * 2 := by
    nlinarith
  unfold addJitter
  refine ⟨le_max_left _ _, ?_, ?_⟩
  · exact max_le (by nlinarith) (by nlinarith)
  · exact le_trans (by nlinarith) (le_max_right _ _)

/-- C8 witness: the amended bounds at delay 100, jitterPercent 1/10, draw 1:
the result is between 90 and 110 and non-negative. -/
theorem addJitter_bounds_witness :
    0 ≤ addJitter 100 (1/10) 1 ∧
    addJitter 100 (1/10) 1 ≤ 100 * (1 + 1/10) ∧
    100 * (1 - 1/10) ≤ addJitter 100 (1/10) 1 :=
  addJitter_bounds 100 (1/10) 1 (by norm_num) (by norm_num) (by norm_num)
    (by norm_num)

/-- Helper: a run of consecutive failed calls from a closed breaker, staying
within the failure threshold, accumulates the failure count, records the last
failure time, and opens the circuit exactly when the threshold is reached. -/
theorem cbRun_consecutive_failures (th rt : Nat) :
    ∀ (ts : List Nat) (t : Nat) (b : Breaker),
      b.state = .closed → b.failures + (ts.length + 1) ≤ th →
      cbRun th rt b ((t :: ts).map fun x => (x, false)) =
        ⟨b.failures + (ts.length + 1), ts.getLastD t,
         if th ≤ b.failures + (ts.length + 1) then .opened else .closed⟩ := by
  intro ts
  induction ts with
  | nil =>
    intro t b hs hle
    simp [cbRun, cbStep, cbCall, hs]
  | cons t' ts' ih =>
    intro t b hs hle
    have hlt : ¬ th ≤ b.failures + 1 := by simp at hle; omega
    have hstep : (cbStep th rt b (t, false).1 (t, false).2).1 =
        ⟨b.failures + 1, t, .closed⟩ := by
      simp [cbStep, cbCall, hs, hlt]
    have hrest := ih t' ⟨b.failures + 1, t, .closed⟩ rfl (by simp at hle ⊢; omega)
    simp only [List.map_cons, cbRun, hstep] at hrest ⊢
    rw [hrest]
    simp only [List.length_cons, List.getLastD_cons]
    have hnum : b.failures + 1 + (ts'.length + 1) = b.failures + (ts'.length + 1 + 1) := by
      omega
    rw [hnum]

/-- C2: after failureThreshold consecutive failed calls (failure times
t :: ts, threshold = length) the breaker for the operation is open with the
last failure time recorded; a further call before recoveryTime has elapsed
fails immediately with the circuit-open rejection, leaving the breaker
unchanged and never invoking the operation (the outcome is `rejected` for
either value of opOk); once recoveryTime has elapsed the next call is let
through as the half-open probe, whose outcome decides the state: success
closes the breaker and resets the failure counter, failure re-opens it and
resets the timer to the probe time. -/
theorem executeWithCircuitBreaker_state_machine (th rt : Nat)
    (t : Nat) (ts : List Nat) (hlen : ts.length + 1 = th) :
    cbRun th rt cbFresh ((t :: ts).map fun x => (x, false)) =
      ⟨th, ts.getLastD t, .opened⟩ ∧
    (∀ (now : Nat) (opOk : Bool), now - ts.getLastD t ≤ rt →
      cbStep th rt ⟨th, ts.getLastD t, .opened⟩ now opOk =
        (⟨th, ts.getLastD t, .opened⟩, .rejected)) ∧
    (∀ now : Nat, rt < now - ts.getLastD t →
      cbStep th rt ⟨th, ts.getLastD t, .opened⟩ now true =
        (⟨0, ts.getLastD t, .closed⟩, .succeeded) ∧
      cbStep th rt ⟨th, ts.getLastD t, .opened⟩ now false =
        (⟨th + 1, now, .opened⟩, .failed)) := by
  refine ⟨?_, ?_, ?_⟩
  · have := cbRun_consecutive_failures th rt ts t cbFresh rfl (by simp [cbFresh]; omega)
    rw [this]
    simp [cbFresh]
    omega
  · intro now opOk hrec
    generalize ts.getLastD t = L at hrec ⊢
    have hnot : ¬ rt < now - L := Nat.not_lt.2 hrec
    simp [cbStep, hnot]
  · intro now hrec
    generalize ts.getLastD t = L at hrec ⊢
    constructor
    · simp [cbStep, hrec, cbCall]
    · simp [cbStep, hrec, cbCall, Nat.le_succ]

/-- C2 witness: threshold 2, recovery 100ms, failures at times 5 and 8; a
call at time 50 is rejected without invoking the operation, and the probe at
time 200 closes the breaker on success. -/
theorem executeWithCircuitBreaker_state_machine_witness :
    cbRun 2 100 cbFresh [(5, false), (8, false)] = ⟨2, 8, .opened⟩ ∧
    cbStep 2 100 ⟨2, 8, .opened⟩ 50 true = (⟨2, 8, .opened⟩, .rejected) ∧
    cbStep 2 100 ⟨2, 8, .opened⟩ 200 true = (⟨0, 8, .closed⟩, .succeeded) := by
  obtain ⟨h1, h2, h3⟩ := executeWithCircuitBreaker_state_machine 2 100 5 [8] rfl
  exact ⟨h1, h2 50 true (by decide), (h3 200 (by decide)).1⟩

/-- Helper: as long as the cumulative failure count stays strictly below the
threshold, the breaker stays closed and its counter equals the number of
failed calls so far, successes included in the sequence notwithstanding. -/
theorem cbRun_closed_invariant (th rt : Nat) :
    ∀ (calls : List (Nat × Bool)) (b : Breaker),
      b.state = .closed → b.failures + cbFailCount calls < th →
      (cbRun th rt b calls).state = .closed ∧
      (cbRun th rt b calls).failures = b.failures + cbFailCount calls := by
  intro calls
  induction calls with
  | nil => intro b hs _; simpa [cbRun, cbFailCount] using hs
  | cons c cs ih =>
    intro b hs hlt
    rcases c with ⟨t, ok⟩
    cases ok with
    | true =>
      have hstep : (cbStep th rt b (t, true).1 (t, true).2).1 = b := by
        simp [cbStep, cbCall, hs]
      have hcount : cbFailCount ((t, true) :: cs) = cbFailCount cs := by
        simp [cbFailCount]
      rw [cbRun, hstep]
      rw [hcount] at hlt ⊢
      exact ih b hs hlt
    | false =>
      have hcount : cbFailCount ((t, false) :: cs) = cbFailCount cs + 1 := by
        simp [cbFailCount, List.countP_cons]
      rw [hcount] at hlt
      have hno : ¬ th ≤ b.failures + 1 := by omega
      have hstep : (cbStep th rt b (t, false).1 (t, false).2).1 =
          ⟨b.failures + 1, t, .closed⟩ := by
        simp [cbStep, cbCall, hs, hno]
      rw [cbRun, hstep]
      have := ih ⟨b.failures + 1, t, .closed⟩ rfl (by simp; omega)
      rw [hcount]
      exact ⟨this.1, by rw [this.2]; simp; omega⟩

/-- C9: a successful call while the breaker is closed leaves the breaker —
failure counter included — unchanged; starting from a fresh breaker, any call
sequence with fewer than failureThreshold failures leaves the breaker closed
with the counter equal to the cumulative failure count, successes in between
notwithstanding; and one more failed call once the count stands at
failureThreshold - 1 opens the circuit. -/
theorem circuitBreaker_cumulative_failures (th rt : Nat) :
    (∀ (b : Breaker) (now : Nat), b.state = .closed →
      cbStep th rt b now true = (b, .succeeded)) ∧
    (∀ calls, cbFailCount calls < th →
      (cbRun th rt cbFresh calls).state = .closed ∧
      (cbRun th rt cbFresh calls).failures = cbFailCount calls) ∧
    (∀ (calls : List (Nat × Bool)) (t : Nat), cbFailCount calls + 1 = th →
      (cbStep th rt (cbRun th rt cbFresh calls) t false).1.state = .opened) := by
  refine ⟨?_, ?_, ?_⟩
  · intro b now hs
    simp [cbStep, cbCall, hs]
  · intro calls hlt
    simpa [cbFresh] using
      cbRun_closed_invariant th rt calls cbFresh rfl (by simp [cbFresh]; omega)
  · intro calls t hth
    have hinv := cbRun_closed_invariant th rt calls cbFresh rfl
      (by simp [cbFresh]; omega)
    have hyes : th ≤ (cbRun th rt cbFresh calls).failures + 1 := by
      rw [hinv.2]; simp [cbFresh]; omega
    simp [cbStep, cbCall, hinv.1, hyes]

/-- Responses refuting C1: the task reports terminal failure status 40000 on
attempt 1, then readiness with data on attempt 2. -/
def c1responses : Nat → PollResponse Nat := fun a =>
  if a = 1 then .response [⟨40000, []⟩] else .response [⟨20000, [42]⟩]

/-- C1 counterexample: the remote task reports a terminal failure status
(40000, neither 20000 nor 20100) on the very first polling attempt, yet
polling does not stop there and no failure is raised: the error is swallowed
by the catch clause (attempt 1 is not past maxAttempts / 2) and polling
proceeds to attempt 2, returning its data successfully. -/
theorem pollForResults_swallows_early_terminal_failure :
    c1responses 1 = .response [⟨40000, []⟩] ∧
    pollForResults c1responses = .ok (some 42) :=
  ⟨rfl, rfl⟩

/-- C1 amended: a terminal failure status (neither 20000 nor 20100) reported
on attempt `attempt` short-circuits polling with that failure only when
attempt > maxAttempts / 2 (attempts 31-60 of the 60 used); on attempts up to
maxAttempts / 2 the error is caught and logged and polling continues with the
next attempt. -/
theorem pollForResults_terminal_failure_amended {α : Type}
    (responses : Nat → PollResponse α) (maxAttempts attempt : Nat)
    (t : TaskEntry α) (rest : List (TaskEntry α))
    (hresp : responses attempt = .response (t :: rest))
    (hc1 : t.status_code ≠ 20000) (hc2 : t.status_code ≠ 20100) :
    (maxAttempts / 2 < attempt → ∀ fuel,
      pollFrom responses maxAttempts attempt (fuel + 1) =
        .error (.taskFailed t.status_code)) ∧
    (attempt ≤ maxAttempts / 2 → ∀ fuel,
      pollFrom responses maxAttempts attempt (fuel + 1) =
        pollFrom responses maxAttempts (attempt + 1) fuel) := by
  have hbody : pollBody (t :: rest) = .raise (.taskFailed t.status_code) := by
    cases h : t.result with
    | nil => simp [pollBody, hc1, hc2, h]
    | cons r rs => simp [pollBody, hc1, hc2, h]
  constructor
  · intro hlate fuel
    simp [pollFrom, pollStep, hresp, hbody, hlate]
  · intro hearly fuel
    simp [pollFrom, pollStep, hresp, hbody, Nat.not_lt.2 hearly]

/-- Responses for the C1 amendment witness: terminal failure status 50000 on
every attempt. -/
def c1wresponses : Nat → PollResponse Nat := fun _ => .response [⟨50000, []⟩]

/-- C1 amendment witness: with maxAttempts 60, the failure reported on
attempt 31 (past 60 / 2 = 30) is raised at once, while the same failure on
attempt 2 just moves polling on to attempt 3. -/
theorem pollForResults_terminal_failure_amended_witness :
    pollFrom c1wresponses 60 31 10 = .error (.taskFailed 50000) ∧
    pollFrom c1wresponses 60 2 10 = pollFrom c1wresponses 60 3 9 :=
  ⟨(pollForResults_terminal_failure_amended c1wresponses 60 31 ⟨50000, []⟩ []
      rfl (by decide) (by decide)).1 (by decide) 9,
   (pollForResults_terminal_failure_amended c1wresponses 60 2 ⟨50000, []⟩ []
      rfl (by decide) (by decide)).2 (by decide) 9⟩

/-- C5: with the authoritative total count from the count task (reviews_count
coalesced through `|| 0`) at most the 10-review sample size, processPhase1
marks the run 'completed' and never schedules Phase 2; with a larger total it
marks the run 'phase_1_complete' and schedules Phase 2 exactly once. -/
theorem processPhase1_completion (reviews_count : Option Nat) (items : List Review) :
    (reviews_count.getD 0 ≤ 10 →
      (processPhase1 reviews_count items).status = "completed" ∧
      (processPhase1 reviews_count items).phase2Scheduled = 0) ∧
    (10 < reviews_count.getD 0 →
      (processPhase1 reviews_count items).status = "phase_1_complete" ∧
      (processPhase1 reviews_count items).phase2Scheduled = 1) := by
  unfold processPhase1
  constructor
  · intro h
    simp [Nat.not_lt.2 h]
  · intro h
    simp [h]

/-- C5 witness: a total of 7 reviews (≤ 10) completes without Phase 2, and a
total of 1210 schedules Phase 2 exactly once. -/
theorem processPhase1_completion_witness :
    ((processPhase1 (some 7) []).status = "completed" ∧
      (processPhase1 (some 7) []).phase2Scheduled = 0) ∧
    ((processPhase1 (some 1210) []).status = "phase_1_complete" ∧
      (processPhase1 (some 1210) []).phase2Scheduled = 1) :=
  ⟨(processPhase1_completion (some 7) []).1 (by decide),
   (processPhase1_completion (some 1210) []).2 (by decide)⟩

/-- C4: with 1200 records remaining after the Phase 1 sample (totalReviews =
1210) and chunk size 500, processPhase2 lays out exactly 3 sequential chunks
at offsets 10, 510 and 1010 covering 500, 500 and 200 records, and for every
outcome of the per-chunk extraction-and-import the final imported_count
written to the run is the Phase 1 sample count 10 plus the sum of the
per-chunk import counts. -/
theorem processPhase2_chunking_1200 (results : Nat → List Review × Nat) :
    phase2Chunks 1210 = [⟨10, 510⟩, ⟨510, 1010⟩, ⟨1010, 1210⟩] ∧
    (phase2Chunks 1210).map (fun c => c.endOffset - c.startOffset) =
      [500, 500, 200] ∧
    phase2FinalImported results (phase2Chunks 1210).length =
      10 + ((List.range 3).map fun chunk =>
        if (results chunk).1.length ≠ 0 then (results chunk).2 else 0).sum := by
  refine ⟨by decide, by decide, ?_⟩
  have hlen : (phase2Chunks 1210).length = 3 := by decide
  rw [hlen]
  have hsplit : ∀ (acc chunk : Nat),
      (if (results chunk).1.length ≠ 0 then acc + (results chunk).2 else acc) =
        acc + (if (results chunk).1.length ≠ 0 then (results chunk).2 else 0) := by
    intro acc chunk
    split <;> simp
  have hr3 : List.range 3 = [0, 1, 2] := by decide
  simp only [phase2FinalImported, hr3, List.foldl_cons, List.foldl_nil,
    List.map_cons, List.map_nil, List.sum_cons, List.sum_nil, hsplit]
  omega

/-- C6: in a Phase 3 run with known watermark T, a review retrieved by the
extraction task is part of the imported upsert exactly when its
timestamp || date_of_visit is present and strictly newer than T; when no
review qualifies the run still completes with imported_count 0 and its status
is 'completed', not 'failed'. -/
theorem processPhase3_filtering (T : Nat) (reviews_count : Option Nat)
    (items : List Review) (upsertCount : List Review → Nat) :
    (∀ r : Review,
      r ∈ (processPhase3 (some T) reviews_count items upsertCount).importedReviews ↔
        r ∈ items ∧ ∃ d, effectiveDate r = some d ∧ T < d) ∧
    ((∀ r ∈ items, (effectiveDate r).getD 0 ≤ T) →
      (processPhase3 (some T) reviews_count items upsertCount).imported_count = 0 ∧
      (processPhase3 (some T) reviews_count items upsertCount).status = "completed" ∧
      (processPhase3 (some T) reviews_count items upsertCount).status ≠ "failed") := by
  have hmem : ∀ r : Review, r ∈ phase3Filter (some T) items ↔
      r ∈ items ∧ ∃ d, effectiveDate r = some d ∧ T < d := by
    intro r
    simp only [phase3Filter, List.mem_filter]
    constructor
    · rintro ⟨hr, hp⟩
      refine ⟨hr, ?_⟩
      cases h : effectiveDate r with
      | none => rw [h] at hp; simp at hp
      | some d => rw [h] at hp; exact ⟨d, rfl, by simpa using hp⟩
    · rintro ⟨hr, d, hd, hT⟩
      exact ⟨hr, by rw [hd]; simpa using hT⟩
  have hite : ∀ (l : List Review), (if l.length ≠ 0 then l else []) = l := by
    intro l
    split
    · rfl
    · rename_i h
      push_neg at h
      exact (List.length_eq_zero.mp h).symm
  constructor
  · intro r
    unfold processPhase3
    simp only [hite]
    exact hmem r
  · intro hall
    have hnil : phase3Filter (some T) items = [] := by
      simp only [phase3Filter, List.filter_eq_nil_iff]
      intro r hr
      cases h : effectiveDate r with
      | none => simp
      | some d =>
        have := hall r hr
        rw [h] at this
        simp at this ⊢
        omega
    unfold processPhase3
    simp [hnil]

/-- C6 witness: watermark 100; a review dated 150 is imported while one dated
50 is not, and when every review is at or before the watermark the run
completes with zero imported and is not failed. -/
theorem processPhase3_filtering_witness :
    ((⟨some 150, none⟩ : Review) ∈
      (processPhase3 (some 100) none [⟨some 150, none⟩, ⟨some 50, none⟩]
        List.length).importedReviews) ∧
    (¬ (⟨some 50, none⟩ : Review) ∈
      (processPhase3 (some 100) none [⟨some 150, none⟩, ⟨some 50, none⟩]
        List.length).importedReviews) ∧
    (processPhase3 (some 100) none [⟨some 50, none⟩] List.length).imported_count
      = 0 ∧
    (processPhase3 (some 100) none [⟨some 50, none⟩] List.length).status =
      "completed" := by
  refine ⟨?_, ?_, ?_, ?_⟩
  · exact ((processPhase3_filtering 100 none
      [⟨some 150, none⟩, ⟨some 50, none⟩] List.length).1 _).2
      ⟨by decide, 150, rfl, by decide⟩
  · intro hmem
    have := ((processPhase3_filtering 100 none
      [⟨some 150, none⟩, ⟨some 50, none⟩] List.length).1 _).1 hmem
    obtain ⟨-, d, hd, hT⟩ := this
    have : d = 50 := by
      simpa [effectiveDate] using hd.symm
    omega
  · exact ((processPhase3_filtering 100 none [⟨some 50, none⟩] List.length).2
      (by decide)).1
  · exact ((processPhase3_filtering 100 none [⟨some 50, none⟩] List.length).2
      (by decide)).2.1

/-- C7 counterexample: in a single full-history processTripAdvisorImport
invocation (totalReviews 100, both polls succeeding on their first attempt, 5
reviews imported in one batch of size 100) the run's progress writes are
0, 10, 20, 30⅓, 40, 30⅓, 60, 95, 100: the fixed 40% write before the bulk
poll is followed by the bulk poll's first proportional write 30 + 1/3, so the
written progress percentage is not monotonically non-decreasing within the
phase invocation. -/
theorem progressTrace_not_monotone :
    ¬ progressMonotone (fullHistoryProgressTrace 100 1 1 5 100) := by
  have htr : fullHistoryProgressTrace 100 1 1 5 100 =
      [0, 10, 20, 91/3, 40, 91/3, 60, 95, 100] := by
    norm_num [fullHistoryProgressTrace, pollWrites, importWrites,
      updateProgressValue, progressIncrement, jsRound, List.range_succ, min_def]
  unfold progressMonotone
  rw [htr]
  norm_num [List.chain'_cons]

/-- Helper: mapping a step-monotone function over an initial segment of the
naturals yields a non-decreasing chain. -/
theorem chain_le_map_range (f : Nat → ℚ) (h : ∀ m, f m ≤ f (m + 1)) (k : Nat) :
    List.Chain' (· ≤ ·) ((List.range k).map f) := by
  rw [List.chain'_map]
  cases k with
  | zero => simp
  | succ n =>
    rw [List.chain'_range_succ]
    intro m _
    exact h m

/-- C7 amended: the proportional progress writes are monotonically
non-decreasing within a single pollForResults invocation (and the claim's
cross-write monotonicity fails only across the phase, per the
counterexample): for every attempt count the polling write sequence is a
non-decreasing chain. -/
theorem pollWrites_monotone (attempts : Nat) :
    progressMonotone (pollWrites attempts) := by
  unfold progressMonotone pollWrites
  apply chain_le_map_range
  intro m
  unfold updateProgressValue
  refine min_le_min (add_le_add_left ?_ 30) le_rfl
  have hpos : (0 : ℚ) ≤ progressIncrement := by
    unfold progressIncrement; norm_num
  have hc : ((m : ℚ) + 1) ≤ ((m + 1 : Nat) : ℚ) + 1 := by push_cast; linarith
  exact mul_le_mul_of_nonneg_right hc hpos

/-- C9 witness: with threshold 2, failures at times 1 and 9 separated by a
success at time 2 still open the breaker: the success leaves the counter at
1, and the second failure reaches the threshold. -/
theorem circuitBreaker_cumulative_failures_witness :
    cbStep 2 100 ⟨1, 1, .closed⟩ 2 true = (⟨1, 1, .closed⟩, .succeeded) ∧
    ((cbRun 2 100 cbFresh [(1, false), (2, true)]).state = .closed ∧
      (cbRun 2 100 cbFresh [(1, false), (2, true)]).failures = 1) ∧
    (cbStep 2 100 (cbRun 2 100 cbFresh [(1, false), (2, true)]) 9 false).1.state =
      .opened := by
  obtain ⟨h1, h2, h3⟩ := circuitBreaker_cumulative_failures 2 100
  refine ⟨h1 ⟨1, 1, .closed⟩ 2 rfl, ?_, h3 [(1, false), (2, true)] 9 (by decide)⟩
  have := h2 [(1, false), (2, true)] (by decide)
  simpa [cbFailCount] using this


/-- Helper: claimNextJob always returns normally (its catch clause converts
every error to a null result). -/
theorem claimNextJob_never_errors {J : Type} (resp : ClaimResponse J) :
    ∃ r, claimNextJob resp = .ok r := by
  cases resp with
  | rpcError m => exact ⟨none, rfl⟩
  | rows data => cases data with
    | nil => exact ⟨none, rfl⟩
    | cons j js => exact ⟨some j, rfl⟩

/-- Helper: the pollForJobs claim loop only depends on the responses through
claimNextJob. -/
theorem pollGo_congr {J : Type} (f g : Nat → ClaimResponse J)
    (h : ∀ j, claimNextJob (f j) = claimNextJob (g j)) :
    ∀ (s i : Nat) (acc : List J), pollGo f i s acc = pollGo g i s acc := by
  intro s
  induction s with
  | zero => intro i acc; rfl
  | succ s ih =>
    intro i acc
    simp only [pollGo, h i]
    cases claimNextJob (g i) with
    | error e => rfl
    | ok r => cases r with
      | none => rfl
      | some j => exact ih (i + 1) (j :: acc)

/-- Helper: the claim loop never propagates an exception. -/
theorem pollGo_never_errors {J : Type} (f : Nat → ClaimResponse J) :
    ∀ (s i : Nat) (acc : List J), ∃ l, pollGo f i s acc = .ok l := by
  intro s
  induction s with
  | zero => intro i acc; exact ⟨acc.reverse, rfl⟩
  | succ s ih =>
    intro i acc
    obtain ⟨r, hr⟩ := claimNextJob_never_errors (f i)
    cases r with
    | none => exact ⟨acc.reverse, by simp [pollGo, hr]⟩
    | some j =>
      obtain ⟨l, hl⟩ := ih (i + 1) (j :: acc)
      exact ⟨l, by simp [pollGo, hr, hl]⟩

/-- C10: claimNextJob turns every error from the queue's atomic
claim_next_job call into a null result, so a failed claim attempt is
indistinguishable from 'no work available' — replacing any one claim
response by an RPC error is the same as replacing it by an empty row set,
ending the claim loop for that cycle at that slot — and pollForJobs never
propagates a claim failure as an exception. -/
theorem claimNextJob_error_is_no_work {J : Type} (m : String)
    (f : Nat → ClaimResponse J) (k slots : Nat) :
    claimNextJob (.rpcError m : ClaimResponse J) = .ok none ∧
    pollForJobs slots (fun i => if i = k then .rpcError m else f i) =
      pollForJobs slots (fun i => if i = k then .rows [] else f i) ∧
    (∃ l, pollForJobs slots f = .ok l) := by
  refine ⟨rfl, ?_, pollGo_never_errors f slots 0 []⟩
  apply pollGo_congr
  intro j
  by_cases hj : j = k
  · simp only [hj, if_pos rfl]
    rfl
  · simp [hj]
